import Mathlib

/-
Verification of the ILI9341 async display driver and framebuffer
(`src/command.rs`, `src/framebuffer.rs`, `src/ili9341_async.rs`).

The driver's observable behaviour is modelled as a trace of wire events
(pin toggles, SPI writes, delays).  The underlying HAL (pins + SPI
transport) is modelled by an `Env` that decides, for each pin operation
and each SPI write in call order, whether it succeeds or fails with an
error kind.  Rust `Result` chains via `?` become first-failure folds
over lists of primitive actions.  Fatal `assert!`/`unwrap` failures are
modelled as a distinct `panicked` outcome.
-/

/-- Observable events on the bus and control pins of the driver. -/
inductive WireEvent where
  | dcLow
  | dcHigh
  | rstLow
  | rstHigh
  | powerHigh
  | spiWrite (bytes : List Nat)
  | delayMs (ms : Nat)
deriving DecidableEq

/-- Driver error type (ili9341_async.rs lines 428-434): an SPI-bus error or
a digital-pin error, carrying the underlying error kind (abstracted as a
natural number). -/
inductive Error where
  | Spi (kind : Nat)
  | Digital (kind : Nat)
deriving DecidableEq

/-- Behaviour of the underlying transport and pins: the k-th pin operation
(counting every `set_low`/`set_high` on any pin, in call order) fails with
the given digital error kind, and the k-th SPI write fails with the given
SPI error kind; `none` means the operation succeeds. -/
structure Env where
  pinFail : Nat → Option Nat
  spiFail : Nat → Option Nat

/-- Execution state: how many pin operations and SPI writes have been
issued so far, and the trace of successfully performed wire events. -/
structure St where
  pinTick : Nat
  spiTick : Nat
  trace : List WireEvent
deriving DecidableEq

/-- Initial state: nothing issued yet. -/
def St.empty : St := ⟨0, 0, []⟩

/-- A primitive action of the driver: one pin operation, one SPI write, or
one delay.  Every statement of the Rust driver bodies is one such action. -/
inductive Act where
  | pin (ev : WireEvent)
  | spi (bytes : List Nat)
  | delay (ms : Nat)
deriving DecidableEq

/-- The wire event a primitive action produces when it succeeds. -/
def actEvent : Act → WireEvent
  | .pin ev => ev
  | .spi b => .spiWrite b
  | .delay n => .delayMs n

/-- Run one primitive action: pin operations and SPI writes consult the
environment at their tick and either record their event or fail with the
wrapped error (`Error::from_digital` respectively `From<SpiError>`);
delays always succeed. -/
def runAct (env : Env) : Act → St → St × Option Error
  | .pin ev, s =>
    match env.pinFail s.pinTick with
    | none => (⟨s.pinTick + 1, s.spiTick, s.trace ++ [ev]⟩, none)
    | some k => (⟨s.pinTick + 1, s.spiTick, s.trace⟩, some (.Digital k))
  | .spi b, s =>
    match env.spiFail s.spiTick with
    | none => (⟨s.pinTick, s.spiTick + 1, s.trace ++ [.spiWrite b]⟩, none)
    | some k => (⟨s.pinTick, s.spiTick + 1, s.trace⟩, some (.Spi k))
  | .delay n, s => (⟨s.pinTick, s.spiTick, s.trace ++ [.delayMs n]⟩, none)

/-- Run a list of primitive actions with the Rust `?` semantics: stop at
the first failing action and return its error unchanged. -/
def runActs (env : Env) : List Act → St → St × Option Error
  | [], s => (s, none)
  | a :: L, s =>
    match runAct env a s with
    | (s1, none) => runActs env L s1
    | (s1, some e) => (s1, some e)

namespace command

/-- Command Software Reset (command.rs line 5). -/
def SOFTWARE_RESET : Nat := 0x01

/-- Command Memory Access Control (command.rs line 8). -/
def MEMORY_ACCESS_CONTROL : Nat := 0x36

/-- Command for Pixel Format Set (command.rs line 11). -/
def PIXEL_FORMAT_SET : Nat := 0x3a

/-- Command for Sleep Mode On (command.rs line 14). -/
def SLEEP_MODE_ON : Nat := 0x10

/-- Command for Sleep Mode Off (command.rs line 17). -/
def SLEEP_MODE_OFF : Nat := 0x11

/-- Command for Invert Off (command.rs line 20). -/
def INVERT_OFF : Nat := 0x20

/-- Command for Invert On (command.rs line 23). -/
def INVERT_ON : Nat := 0x21

/-- Command for Display Off (command.rs line 26). -/
def DISPLAY_OFF : Nat := 0x28

/-- Command for Display On (command.rs line 29). -/
def DISPLAY_ON : Nat := 0x29

/-- Command Column Address Set (command.rs line 32). -/
def COLUMN_ADDRESS_SET : Nat := 0x2a

/-- Command for Page Address Set (command.rs line 35). -/
def PAGE_ADDRESS_SET : Nat := 0x2b

/-- Command for MemoryWrite (command.rs line 38). -/
def MEMORY_WRITE : Nat := 0x2c

/-- Command for Power A (command.rs line 65). -/
def POWER_A : Nat := 0xcf

/-- Command for Power B (command.rs line 68). -/
def POWER_B : Nat := 0xcf

end command

namespace ili9341_async

/-- State of a specific mode of operation (ili9341_async.rs lines 19-22). -/
inductive ModeState where
  | On
  | Off
deriving DecidableEq

/-- Display orientation (ili9341_async.rs lines 34-37). -/
inductive Orientation where
  | Potrait
  | Landscape
deriving DecidableEq

/-- Configuration part of the `Ili9341` driver struct (ili9341_async.rs
lines 74-97); the capability handles (spi, dc, rst, power) live in `Env`
and `St` of the trace semantics. -/
structure Ili9341 where
  inverted : ModeState
  orientation : Orientation
  height : Nat
  width : Nat
deriving DecidableEq

/-- Action list of `send_command` (ili9341_async.rs lines 341-352): drive
the data/command pin low, write the single opcode byte on SPI, and, only
when the payload is non-empty, drive the pin high and write the payload. -/
def send_command_acts (cmd : Nat) (data : List Nat) : List Act :=
  [.pin .dcLow, .spi [cmd]] ++ (if data.isEmpty then [] else [.pin .dcHigh, .spi data])

/-- The `send_command` method run against an environment. -/
def send_command (env : Env) (cmd : Nat) (data : List Nat) (s : St) : St × Option Error :=
  runActs env (send_command_acts cmd data) s

/-- Action list of `hardware_reset` (ili9341_async.rs lines 162-184):
reset pin low, 1 ms delay, reset pin high, 5 ms delay. -/
def hardware_reset_acts : List Act :=
  [.pin .rstLow, .delay 1, .pin .rstHigh, .delay 5]

/-- Action list of `software_reset` (ili9341_async.rs lines 191-201):
software-reset command with empty payload, then a 120 ms delay. -/
def software_reset_acts : List Act :=
  send_command_acts command.SOFTWARE_RESET [] ++ [.delay 120]

/-- Action list of `set_orientation` (ili9341_async.rs lines 208-225):
memory-access-control command with parameter 0x68 (portrait) or 0x08
(landscape). -/
def set_orientation_acts (d : Ili9341) : List Act :=
  match d.orientation with
  | .Potrait => send_command_acts command.MEMORY_ACCESS_CONTROL [0x68]
  | .Landscape => send_command_acts command.MEMORY_ACCESS_CONTROL [0x08]

/-- Action list of `set_pixel_format` (ili9341_async.rs lines 233-241):
pixel-format-set command with parameter 0x55. -/
def set_pixel_format_acts : List Act :=
  send_command_acts command.PIXEL_FORMAT_SET [0x55]

/-- Action list of `set_sleep_mode` (ili9341_async.rs lines 248-269). -/
def set_sleep_mode_acts : ModeState → List Act
  | .Off => send_command_acts command.SLEEP_MODE_OFF [] ++ [.delay 150]
  | .On => send_command_acts command.SLEEP_MODE_ON [] ++ [.delay 50]

/-- Action list of `set_display_mode` (ili9341_async.rs lines 276-297). -/
def set_display_mode_acts : ModeState → List Act
  | .Off => send_command_acts command.DISPLAY_OFF [] ++ [.delay 100]
  | .On => send_command_acts command.DISPLAY_ON [] ++ [.delay 100]

/-- Action list of `set_invert_mode` (ili9341_async.rs lines 304-320). -/
def set_invert_mode_acts (d : Ili9341) : List Act :=
  match d.inverted with
  | .Off => send_command_acts command.INVERT_OFF []
  | .On => send_command_acts command.INVERT_ON []

/-- Action list of the display initialization method (ili9341_async.rs
lines 142-155): the seven steps in source order, chained with
first-failure semantics. -/
def initDisplay_acts (d : Ili9341) : List Act :=
  hardware_reset_acts ++ software_reset_acts ++ set_orientation_acts d ++
    set_pixel_format_acts ++ set_invert_mode_acts d ++
    set_sleep_mode_acts .Off ++ set_display_mode_acts .On

/-- The display initialization method (named after "init display"; the
Rust method name is a reserved word in Lean) run against an environment. -/
def initDisplay (d : Ili9341) (env : Env) (s : St) : St × Option Error :=
  runActs env (initDisplay_acts d) s

/-- Action list of `set_window` (ili9341_async.rs lines 389-414) for u16
corner coordinates: column-address-set with the big-endian bytes of x0
and x1, then page-address-set with the big-endian bytes of y0 and y1
(for a u16 value v, `(v >> 8) as u8` is v / 256 and `(v & 0xff) as u8`
is v % 256). -/
def set_window_acts (x0 y0 x1 y1 : Nat) : List Act :=
  send_command_acts command.COLUMN_ADDRESS_SET
      [x0 / 256, x0 % 256, x1 / 256, x1 % 256] ++
    send_command_acts command.PAGE_ADDRESS_SET
      [y0 / 256, y0 % 256, y1 / 256, y1 % 256]

end ili9341_async

/-- A point in 2D space (embedded-graphics-core), with signed integer
coordinates. -/
structure Point where
  x : Int
  y : Int
deriving DecidableEq

/-- A 2D size (embedded-graphics-core), with unsigned (u32) components. -/
structure Size where
  width : Nat
  height : Nat
deriving DecidableEq

/-- A rectangle (embedded-graphics-core): top-left corner and size. -/
structure Rectangle where
  top_left : Point
  size : Size
deriving DecidableEq

/-- The `bottom_right` method of embedded-graphics-core `Rectangle`:
`top_left + size - (1, 1)` when the rectangle is non-empty, `None` when
either dimension is zero. -/
def Rectangle.bottomRight (r : Rectangle) : Option Point :=
  if r.size.width = 0 ∨ r.size.height = 0 then none
  else some ⟨r.top_left.x + r.size.width - 1, r.top_left.y + r.size.height - 1⟩

/-- The `contains` method of embedded-graphics-core `Rectangle`: the point
is at or after the top-left corner and, when a bottom-right corner
exists, at or before it (an empty rectangle contains nothing). -/
def Rectangle.containsP (r : Rectangle) (p : Point) : Bool :=
  decide (r.top_left.x ≤ p.x) && decide (r.top_left.y ≤ p.y) &&
    (match r.bottomRight with
     | some br => decide (p.x ≤ br.x) && decide (p.y ≤ br.y)
     | none => false)

/-- Semantic membership of a point in a rectangle, used to state what
"fully contained" means in the specification. -/
def Rectangle.memSem (r : Rectangle) (p : Point) : Prop :=
  r.top_left.x ≤ p.x ∧ p.x < r.top_left.x + r.size.width ∧
    r.top_left.y ≤ p.y ∧ p.y < r.top_left.y + r.size.height

instance (r : Rectangle) (p : Point) : Decidable (r.memSem p) := by
  unfold Rectangle.memSem
  infer_instance

namespace ili9341_async

/-- The `size` method of the driver (ili9341_async.rs lines 106-108):
width and height cast `as u32`. -/
def Ili9341.sizeEG (d : Ili9341) : Size :=
  ⟨d.width % 2 ^ 32, d.height % 2 ^ 32⟩

/-- The `bounding_box` of the driver (embedded-graphics `Dimensions` via
`OriginDimensions`): the rectangle at the origin with the driver's size. -/
def Ili9341.bounding_box (d : Ili9341) : Rectangle :=
  ⟨⟨0, 0⟩, d.sizeEG⟩

/-- Semantic version of "the point lies inside the configured logical
display bounds". -/
def Ili9341.inBounds (d : Ili9341) (p : Point) : Prop :=
  0 ≤ p.x ∧ p.x < (d.width % 2 ^ 32 : Nat) ∧
    0 ≤ p.y ∧ p.y < (d.height % 2 ^ 32 : Nat)

instance (d : Ili9341) (p : Point) : Decidable (d.inBounds p) := by
  unfold Ili9341.inBounds
  infer_instance

/-- Rust `u16::try_from(i32)`: succeeds exactly on 0..=65535. -/
def toU16 (i : Int) : Option Nat :=
  if 0 ≤ i ∧ i ≤ 65535 then some i.toNat else none

/-- Outcome of an operation that may die on a failed assertion or unwrap
(a fatal precondition violation) rather than return a `Result`. -/
inductive WPResult where
  | panicked
  | finished (r : Option Error)
deriving DecidableEq

/-- The `write_pixels` method (ili9341_async.rs lines 368-385): assert the
top-left corner is inside the bounding box, unwrap the bottom-right
corner (dies on an empty area), assert it is inside the bounding box,
convert the four coordinates to u16 (dies when out of u16 range), then
set the window, send memory-write with empty payload, drive the
data/command pin high, and stream the payload bytes over SPI. -/
def write_pixels (d : Ili9341) (env : Env) (data : List Nat) (area : Rectangle)
    (s : St) : St × WPResult :=
  if d.bounding_box.containsP area.top_left then
    match area.bottomRight with
    | none => (s, .panicked)
    | some br =>
      if d.bounding_box.containsP br then
        match toU16 area.top_left.x, toU16 area.top_left.y, toU16 br.x, toU16 br.y with
        | some x0, some y0, some x1, some y1 =>
          let sr := runActs env
            (set_window_acts x0 y0 x1 y1 ++
              send_command_acts command.MEMORY_WRITE [] ++
              [.pin .dcHigh, .spi data]) s
          (sr.1, .finished sr.2)
        | _, _, _, _ => (s, .panicked)
      else (s, .panicked)
  else (s, .panicked)

end ili9341_async

/-- The framebuffer (framebuffer.rs lines 19-23): a logical size, a
borrowed byte buffer, and the fixed per-pixel byte width of the color
type (`BYTES_PER_PIXEL = size_of::<C::Bytes>()`). -/
structure Framebuffer where
  size : Size
  data : List Nat
  bpp : Nat
deriving DecidableEq

/-- The `pixel_count` method (framebuffer.rs lines 52-54). -/
def Framebuffer.pixel_count (fb : Framebuffer) : Nat :=
  fb.size.width * fb.size.height

/-- The `Framebuffer::new` constructor (framebuffer.rs lines 34-46):
dies on the assertion `data.len() >= pixel_count * BYTES_PER_PIXEL`
(modelled as `none`), otherwise zero-fills the whole borrowed buffer
(`s.data.fill(0)`) and returns the framebuffer. -/
def Framebuffer.new (bpp : Nat) (data : List Nat) (size : Size) : Option Framebuffer :=
  if data.length < size.width * size.height * bpp then none
  else some ⟨size, List.replicate data.length 0, bpp⟩

/-- The `data` method (framebuffer.rs lines 48-50): the slice
`&self.data[..pixel_count * BYTES_PER_PIXEL]`; slicing dies (modelled as
`none`) when the bound exceeds the buffer length, which the construction
invariant rules out. -/
def Framebuffer.dataBytes (fb : Framebuffer) : Option (List Nat) :=
  if fb.pixel_count * fb.bpp ≤ fb.data.length then
    some (fb.data.take (fb.pixel_count * fb.bpp))
  else none

/-- Rust `usize::try_from(i32)`: succeeds exactly on non-negative values. -/
def toUsize (i : Int) : Option Nat :=
  if 0 ≤ i then some i.toNat else none

/-- In-place overwrite of `bytes.length` bytes of `data` starting at
`off`, as performed by
`data[off..off + BYTES_PER_PIXEL].copy_from_slice(enc)` when
`off + bytes.length ≤ data.length`. -/
def writeBytes (data : List Nat) (off : Nat) (bytes : List Nat) : List Nat :=
  data.take off ++ bytes ++ data.drop (off + bytes.length)

/-- One iteration of the loop in `draw_iter` (framebuffer.rs lines 75-96)
for a pixel at point `p` whose color encodes (big-endian, via
`to_be_bytes`) to the byte list `enc` of length `bpp`: skip the pixel if
either coordinate fails the usize conversion (is negative) or is at or
beyond the framebuffer size, otherwise overwrite the `bpp` bytes at
offset `(y * width + x) * bpp`. -/
def drawPixel (fb : Framebuffer) (p : Point) (enc : List Nat) : Framebuffer :=
  match toUsize p.x with
  | none => fb
  | some x =>
    match toUsize p.y with
    | none => fb
    | some y =>
      if x ≥ fb.size.width ∨ y ≥ fb.size.height then fb
      else
        { fb with
          data := writeBytes fb.data ((y * fb.size.width + x) * fb.bpp) enc }

/-- The `draw_iter` method (framebuffer.rs lines 71-98): fold the pixel
loop over the drawn sequence; the Rust error type is `Infallible`, so the
method always returns `Ok` and the model returns just the new buffer. -/
def draw_iter (fb : Framebuffer) (pixels : List (Point × List Nat)) : Framebuffer :=
  pixels.foldl (fun acc pe => drawPixel acc pe.1 pe.2) fb

/-- The error returned by a failed run is exactly the error the
environment produced at the most recently issued pin operation or SPI
write, wrapped according to its origin. -/
def errAtEnd (env : Env) (s : St) (e : Error) : Prop :=
  (∃ k, e = Error.Digital k ∧ env.pinFail (s.pinTick - 1) = some k) ∨
    (∃ k, e = Error.Spi k ∧ env.spiFail (s.spiTick - 1) = some k)

/-- Expected full wire trace of a successful initialization, as the spec
enumerates it: hardware reset pulses and settle delays, software reset,
orientation, pixel format, invert mode, sleep out, display on. -/
def initFullTrace (d : ili9341_async.Ili9341) : List WireEvent :=
  [.rstLow, .delayMs 1, .rstHigh, .delayMs 5,
   .dcLow, .spiWrite [command.SOFTWARE_RESET], .delayMs 120,
   .dcLow, .spiWrite [command.MEMORY_ACCESS_CONTROL], .dcHigh,
   .spiWrite [if d.orientation = .Potrait then 0x68 else 0x08],
   .dcLow, .spiWrite [command.PIXEL_FORMAT_SET], .dcHigh, .spiWrite [0x55],
   .dcLow,
   .spiWrite [if d.inverted = .On then command.INVERT_ON else command.INVERT_OFF],
   .dcLow, .spiWrite [command.SLEEP_MODE_OFF], .delayMs 150,
   .dcLow, .spiWrite [command.DISPLAY_ON], .delayMs 100]

/-- Expected wire trace of one `send_command` call. -/
def sendCommandTrace (cmd : Nat) (data : List Nat) : List WireEvent :=
  [.dcLow, .spiWrite [cmd]] ++
    (if data = [] then [] else [.dcHigh, .spiWrite data])

/-- Expected wire trace of a successful `write_pixels` call on the window
with corners (x0, y0) and (x1, y1): column-address-set with the 16-bit
big-endian x bounds, page-address-set with the y bounds, memory-write
with no payload, then the pixel bytes with the select line high. -/
def writePixelsTrace (x0 y0 x1 y1 : Nat) (data : List Nat) : List WireEvent :=
  [.dcLow, .spiWrite [command.COLUMN_ADDRESS_SET],
   .dcHigh, .spiWrite [x0 / 256, x0 % 256, x1 / 256, x1 % 256],
   .dcLow, .spiWrite [command.PAGE_ADDRESS_SET],
   .dcHigh, .spiWrite [y0 / 256, y0 % 256, y1 / 256, y1 % 256],
   .dcLow, .spiWrite [command.MEMORY_WRITE],
   .dcHigh, .spiWrite data]

/-- An environment in which every pin operation and SPI write succeeds. -/
def envAllOk : Env := ⟨fun _ => none, fun _ => none⟩

/-- An environment in which the very first pin operation fails with
digital error kind 3 and everything else succeeds. -/
def envPin0Fails : Env :=
  ⟨fun k => if k = 0 then some 3 else none, fun _ => none⟩

/-- The default driver configuration (ili9341_async.rs lines 47-56):
inverted color on, landscape, 240 x 320. -/
def dDefault : ili9341_async.Ili9341 :=
  ⟨.On, .Landscape, 240, 320⟩

namespace ili9341_async

theorem runActs_nil (env : Env) (s : St) : runActs env [] s = (s, none) := rfl

/-- First-failure characterization of a run: either every action succeeds
and the trace grows by exactly the action events in order, or the list
splits at a first failing action, the trace grows by exactly the events
of the actions before it, and the returned error is the environment's
error at the failing operation. -/
theorem runActs_spec (env : Env) (L : List Act) (s : St) :
    ((runActs env L s).2 = none ∧
      (runActs env L s).1.trace = s.trace ++ L.map actEvent) ∨
    (∃ L1 a L2 e, L = L1 ++ a :: L2 ∧
      (runActs env L s).2 = some e ∧
      (runActs env L s).1.trace = s.trace ++ L1.map actEvent ∧
      errAtEnd env (runActs env L s).1 e) := by
  induction L generalizing s with
  | nil => exact Or.inl ⟨rfl, by simp [runActs]⟩
  | cons a L ih =>
    cases a with
    | pin ev =>
      cases h : env.pinFail s.pinTick with
      | none =>
        have hr : runActs env (Act.pin ev :: L) s =
            runActs env L ⟨s.pinTick + 1, s.spiTick, s.trace ++ [ev]⟩ := by
          simp [runActs, runAct, h]
        rw [hr]
        rcases ih ⟨s.pinTick + 1, s.spiTick, s.trace ++ [ev]⟩ with ⟨h1, h2⟩ |
          ⟨L1, b, L2, e, heq, h1, h2, h3⟩
        · exact Or.inl ⟨h1, by simpa [actEvent] using h2⟩
        · exact Or.inr ⟨.pin ev :: L1, b, L2, e, by simp [heq], h1,
            by simpa [actEvent] using h2, h3⟩
      | some k =>
        have hr : runActs env (Act.pin ev :: L) s =
            (⟨s.pinTick + 1, s.spiTick, s.trace⟩, some (.Digital k)) := by
          simp [runActs, runAct, h]
        rw [hr]
        exact Or.inr ⟨[], .pin ev, L, .Digital k, by simp, rfl, by simp,
          Or.inl ⟨k, rfl, by simpa using h⟩⟩
    | spi b =>
      cases h : env.spiFail s.spiTick with
      | none =>
        have hr : runActs env (Act.spi b :: L) s =
            runActs env L ⟨s.pinTick, s.spiTick + 1, s.trace ++ [.spiWrite b]⟩ := by
          simp [runActs, runAct, h]
        rw [hr]
        rcases ih ⟨s.pinTick, s.spiTick + 1, s.trace ++ [.spiWrite b]⟩ with ⟨h1, h2⟩ |
          ⟨L1, c, L2, e, heq, h1, h2, h3⟩
        · exact Or.inl ⟨h1, by simpa [actEvent] using h2⟩
        · exact Or.inr ⟨.spi b :: L1, c, L2, e, by simp [heq], h1,
            by simpa [actEvent] using h2, h3⟩
      | some k =>
        have hr : runActs env (Act.spi b :: L) s =
            (⟨s.pinTick, s.spiTick + 1, s.trace⟩, some (.Spi k)) := by
          simp [runActs, runAct, h]
        rw [hr]
        exact Or.inr ⟨[], .spi b, L, .Spi k, by simp, rfl, by simp,
          Or.inr ⟨k, rfl, by simpa using h⟩⟩
    | delay n =>
      have hr : runActs env (Act.delay n :: L) s =
          runActs env L ⟨s.pinTick, s.spiTick, s.trace ++ [.delayMs n]⟩ := by
        simp [runActs, runAct]
      rw [hr]
      rcases ih ⟨s.pinTick, s.spiTick, s.trace ++ [.delayMs n]⟩ with ⟨h1, h2⟩ |
        ⟨L1, c, L2, e, heq, h1, h2, h3⟩
      · exact Or.inl ⟨h1, by simpa [actEvent] using h2⟩
      · exact Or.inr ⟨.delay n :: L1, c, L2, e, by simp [heq], h1,
          by simpa [actEvent] using h2, h3⟩

end ili9341_async

namespace ili9341_async

/-- C1: for every delay capability and every underlying transport/pin
behaviour, the initialization method performs exactly hardwareReset,
softwareReset, setOrientation, setPixelFormat, setInvertMode,
setSleepMode(Off), setDisplayMode(On), strictly in that order, emitting
the byte sequences of each step; if any step fails, no subsequent step
executes (the emitted trace stops strictly inside the expected sequence)
and the method returns that step's underlying error unchanged. -/
theorem initDisplay_protocol (d : Ili9341) (env : Env) :
    ((initDisplay d env St.empty).2 = none →
      (initDisplay d env St.empty).1.trace = initFullTrace d) ∧
    (∀ e, (initDisplay d env St.empty).2 = some e →
      (initDisplay d env St.empty).1.trace <+: initFullTrace d ∧
      (initDisplay d env St.empty).1.trace ≠ initFullTrace d ∧
      errAtEnd env (initDisplay d env St.empty).1 e) := by
  have hmap : (initDisplay_acts d).map actEvent = initFullTrace d := by
    obtain ⟨inv, ori, hh, ww⟩ := d
    cases inv <;> cases ori <;> rfl
  simp only [initDisplay]
  rcases runActs_spec env (initDisplay_acts d) St.empty with ⟨h1, h2⟩ |
    ⟨L1, a, L2, e, heq, h1, h2, h3⟩
  · constructor
    · intro _
      rw [h2, hmap]
      rfl
    · intro e he
      rw [h1] at he
      exact Option.noConfusion he
  · constructor
    · intro hnone
      rw [h1] at hnone
      exact Option.noConfusion hnone
    · intro e2 he2
      have he : e = e2 := by
        rw [h1] at he2
        exact Option.some.inj he2
      subst he
      refine ⟨?_, ?_, h3⟩
      · rw [h2, ← hmap, heq]
        simp [St.empty]
      · rw [h2, ← hmap, heq]
        simp [St.empty]

/-- Witness for C1: with the default configuration, an all-succeeding
environment produces exactly the expected initialization trace, and an
environment whose first pin operation fails with digital error kind 3
stops with a strictly shorter trace and returns that error. -/
theorem initDisplay_protocol_witness :
    (initDisplay dDefault envAllOk St.empty).1.trace = initFullTrace dDefault ∧
    ((initDisplay dDefault envPin0Fails St.empty).1.trace <+: initFullTrace dDefault ∧
      (initDisplay dDefault envPin0Fails St.empty).1.trace ≠ initFullTrace dDefault ∧
      errAtEnd envPin0Fails (initDisplay dDefault envPin0Fails St.empty).1
        (Error.Digital 3)) :=
  ⟨(initDisplay_protocol dDefault envAllOk).1 rfl,
   (initDisplay_protocol dDefault envPin0Fails).2 (Error.Digital 3) rfl⟩

/-- C8: for every opcode byte and payload, `send_command` first drives
the select line low and transmits the opcode as a single byte; then, if
and only if the payload is non-empty, it drives the select line high and
transmits the payload bytes (visible in the expected trace, which
contains the high toggle and payload write exactly when the payload is
non-empty); any pin or transport failure is propagated immediately and
no later operation of the pair executes. -/
theorem send_command_protocol (env : Env) (cmd : Nat) (data : List Nat) (s : St) :
    ((send_command env cmd data s).2 = none →
      (send_command env cmd data s).1.trace = s.trace ++ sendCommandTrace cmd data) ∧
    (∀ e, (send_command env cmd data s).2 = some e →
      (send_command env cmd data s).1.trace <+: s.trace ++ sendCommandTrace cmd data ∧
      (send_command env cmd data s).1.trace ≠ s.trace ++ sendCommandTrace cmd data ∧
      errAtEnd env (send_command env cmd data s).1 e) := by
  have hmap : (send_command_acts cmd data).map actEvent = sendCommandTrace cmd data := by
    cases data <;> rfl
  simp only [send_command]
  rcases runActs_spec env (send_command_acts cmd data) s with ⟨h1, h2⟩ |
    ⟨L1, a, L2, e, heq, h1, h2, h3⟩
  · constructor
    · intro _
      rw [h2, hmap]
    · intro e he
      rw [h1] at he
      exact Option.noConfusion he
  · constructor
    · intro hnone
      rw [h1] at hnone
      exact Option.noConfusion hnone
    · intro e2 he2
      have he : e = e2 := by
        rw [h1] at he2
        exact Option.some.inj he2
      subst he
      refine ⟨?_, ?_, h3⟩
      · rw [h2, ← hmap, heq]
        simp
      · rw [h2, ← hmap, heq]
        simp

/-- Witness for C8: sending opcode 0x36 with payload [8] in an
all-succeeding environment emits low, opcode, high, payload; sending
opcode 0x01 with empty payload emits only low and the opcode byte. -/
theorem send_command_protocol_witness :
    (send_command envAllOk 0x36 [8] St.empty).1.trace =
      St.empty.trace ++ sendCommandTrace 0x36 [8] ∧
    (send_command envAllOk 0x01 [] St.empty).1.trace =
      St.empty.trace ++ sendCommandTrace 0x01 [] :=
  ⟨(send_command_protocol envAllOk 0x36 [8] St.empty).1 rfl,
   (send_command_protocol envAllOk 0x01 [] St.empty).1 rfl⟩

end ili9341_async

/-- C9: the two opcode constants for power-control groups A and B are
equal to each other in the command table (both are the byte 0xcf). -/
theorem power_a_eq_power_b : command.POWER_A = command.POWER_B := rfl

namespace ili9341_async

theorem toU16_coe (n : Nat) (h : n ≤ 65535) : toU16 (n : Int) = some n := by
  have h1 : (0 : Int) ≤ (n : Int) := Int.natCast_nonneg n
  have h2 : (n : Int) ≤ 65535 := by exact_mod_cast h
  simp [toU16, h1, h2]

/-- Containment in the driver's bounding box coincides with the semantic
notion of lying inside the configured logical display bounds. -/
theorem containsP_bbox_iff (d : Ili9341) (q : Point) :
    d.bounding_box.containsP q = true ↔ d.inBounds q := by
  simp only [Ili9341.bounding_box, Ili9341.sizeEG, Ili9341.inBounds,
    Rectangle.containsP, Rectangle.bottomRight]
  split_ifs with hw
  · simp
    omega
  · simp
    omega

/-- C2: for every non-empty in-bounds rectangle with top-left (x0, y0)
and bottom-right (x1, y1) and every byte sequence, a successful
`write_pixels` emits on the wire, in order: column-address-set with
payload [x0 high, x0 low, x1 high, x1 low], page-address-set with
payload [y0 high, y0 low, y1 high, y1 low] (16-bit big-endian
coordinates), memory-write with empty payload, then the input bytes
verbatim with the select line high. -/
theorem write_pixels_protocol (d : Ili9341) (env : Env) (data : List Nat)
    (area : Rectangle) (s : St) (x0 y0 x1 y1 : Nat)
    (htl : area.top_left = ⟨(x0 : Int), (y0 : Int)⟩)
    (hbr : area.bottomRight = some ⟨(x1 : Int), (y1 : Int)⟩)
    (hx0 : x0 ≤ 65535) (hy0 : y0 ≤ 65535) (hx1 : x1 ≤ 65535) (hy1 : y1 ≤ 65535)
    (hc0 : d.bounding_box.containsP area.top_left = true)
    (hc1 : d.bounding_box.containsP ⟨(x1 : Int), (y1 : Int)⟩ = true) :
    (write_pixels d env data area s).2 = .finished none →
    (write_pixels d env data area s).1.trace =
      s.trace ++ writePixelsTrace x0 y0 x1 y1 data := by
  have hc0a : d.bounding_box.containsP ⟨(x0 : Int), (y0 : Int)⟩ = true := htl ▸ hc0
  simp only [write_pixels, htl, hbr, hc0, hc0a, hc1, toU16_coe x0 hx0,
    toU16_coe y0 hy0, toU16_coe x1 hx1, toU16_coe y1 hy1, if_true]
  intro hnone
  have hfin : (runActs env
      (set_window_acts x0 y0 x1 y1 ++ send_command_acts command.MEMORY_WRITE [] ++
        [.pin .dcHigh, .spi data]) s).2 = none := by
    exact WPResult.finished.inj hnone
  rcases runActs_spec env
      (set_window_acts x0 y0 x1 y1 ++ send_command_acts command.MEMORY_WRITE [] ++
        [.pin .dcHigh, .spi data]) s with ⟨h1, h2⟩ | ⟨L1, a, L2, e, heq, h1, h2, h3⟩
  · rw [h2]
    rfl
  · rw [h1] at hfin
    exact Option.noConfusion hfin

/-- Witness for C2: writing one byte to the rectangle with top-left
(10, 20) and bottom-right (30, 40) on the default 320 x 240 display in
an all-succeeding environment emits exactly the expected sequence, whose
address payloads are [0x00, 0x0A, 0x00, 0x1E] and [0x00, 0x14, 0x00,
0x28]. -/
theorem write_pixels_protocol_witness :
    (write_pixels dDefault envAllOk [171] ⟨⟨10, 20⟩, ⟨21, 21⟩⟩ St.empty).1.trace =
      St.empty.trace ++ writePixelsTrace 10 20 30 40 [171] ∧
    writePixelsTrace 10 20 30 40 [171] =
      [.dcLow, .spiWrite [0x2a], .dcHigh, .spiWrite [0x00, 0x0A, 0x00, 0x1E],
       .dcLow, .spiWrite [0x2b], .dcHigh, .spiWrite [0x00, 0x14, 0x00, 0x28],
       .dcLow, .spiWrite [0x2c], .dcHigh, .spiWrite [171]] :=
  ⟨write_pixels_protocol dDefault envAllOk [171] ⟨⟨10, 20⟩, ⟨21, 21⟩⟩ St.empty
      10 20 30 40 rfl (by decide) (by decide) (by decide) (by decide) (by decide)
      (by decide) (by decide) rfl,
   by decide⟩

/-- C6: for every area that is empty or not fully contained in the
configured logical display bounds, `write_pixels` dies on a failed
precondition assertion with the state unchanged: no byte is sent on the
transport and no pin is toggled. -/
theorem write_pixels_bounds_panic (d : Ili9341) (env : Env) (data : List Nat)
    (area : Rectangle) (s : St)
    (h : area.size.width = 0 ∨ area.size.height = 0 ∨
      ∃ p, area.memSem p ∧ ¬ d.inBounds p) :
    write_pixels d env data area s = (s, .panicked) := by
  by_cases hc0 : d.bounding_box.containsP area.top_left = true
  · cases hbr : area.bottomRight with
    | none => simp [write_pixels, hc0, hbr]
    | some br =>
      by_cases hc1 : d.bounding_box.containsP br = true
      · exfalso
        rw [Rectangle.bottomRight] at hbr
        split_ifs at hbr with hemp
        have hbr2 := Option.some.inj hbr
        subst hbr2
        rcases h with h | h | ⟨p, hmem, hnb⟩
        · exact hemp (Or.inl h)
        · exact hemp (Or.inr h)
        · have hb0 := (containsP_bbox_iff d area.top_left).mp hc0
          have hb1 := (containsP_bbox_iff d _).mp hc1
          simp only [Ili9341.inBounds, Rectangle.memSem] at hb0 hb1 hmem hnb
          omega
      · simp [write_pixels, hc0, hbr, hc1]
  · simp [write_pixels, hc0]

/-- Witness for C6: a 30 x 10 area at x = 300 sticks out of the default
320 x 240 display (the point (320, 0) is inside the area but outside the
bounds), so `write_pixels` dies with the state untouched. -/
theorem write_pixels_bounds_panic_witness :
    write_pixels dDefault envAllOk [] ⟨⟨300, 0⟩, ⟨30, 10⟩⟩ St.empty =
      (St.empty, .panicked) :=
  write_pixels_bounds_panic dDefault envAllOk [] ⟨⟨300, 0⟩, ⟨30, 10⟩⟩ St.empty
    (Or.inr (Or.inr ⟨⟨320, 0⟩, by decide, by decide⟩))

end ili9341_async

/-- C3: framebuffer construction fails (fatal precondition violation) if
and only if the buffer's length is strictly less than
width * height * bytesPerPixel; when it succeeds, every byte of the used
prefix of that length is zero. -/
theorem framebuffer_new_spec (bpp : Nat) (buf : List Nat) (size : Size) :
    (Framebuffer.new bpp buf size = none ↔
      buf.length < size.width * size.height * bpp) ∧
    (∀ fb, Framebuffer.new bpp buf size = some fb →
      ∀ i, i < size.width * size.height * bpp → fb.data[i]? = some 0) := by
  constructor
  · unfold Framebuffer.new
    split_ifs with h
    · simp [h]
    · simp [h]
  · intro fb hfb i hi
    unfold Framebuffer.new at hfb
    split_ifs at hfb with h
    have hfb2 := Option.some.inj hfb
    subst hfb2
    simp [List.getElem?_replicate]
    omega

/-- Witness for C3: a one-byte buffer is too small for a 1 x 1 two-byte
framebuffer, while construction over a two-byte buffer succeeds and the
used bytes read zero. -/
theorem framebuffer_new_spec_witness :
    Framebuffer.new 2 [5] ⟨1, 1⟩ = none ∧
    (⟨⟨1, 1⟩, [0, 0], 2⟩ : Framebuffer).data[1]? = some 0 :=
  ⟨(framebuffer_new_spec 2 [5] ⟨1, 1⟩).1.mpr (by decide),
   (framebuffer_new_spec 2 [5, 7] ⟨1, 1⟩).2 ⟨⟨1, 1⟩, [0, 0], 2⟩ rfl 1 (by decide)⟩

/-- C10: successful framebuffer construction zero-fills the entire
caller-supplied backing buffer, including every byte beyond the used
prefix: the buffer becomes all zeros at its full original length. -/
theorem framebuffer_new_zero_all (bpp : Nat) (buf : List Nat) (size : Size)
    (fb : Framebuffer) (h : Framebuffer.new bpp buf size = some fb) :
    fb.data = List.replicate buf.length 0 := by
  unfold Framebuffer.new at h
  split_ifs at h
  have h2 := Option.some.inj h
  subst h2
  rfl

/-- Witness for C10: constructing a 1 x 1 two-byte framebuffer over a
three-byte buffer zeroes all three bytes, the trailing one included. -/
theorem framebuffer_new_zero_all_witness :
    (⟨⟨1, 1⟩, [0, 0, 0], 2⟩ : Framebuffer).data = List.replicate 3 0 :=
  framebuffer_new_zero_all 2 [5, 7, 9] ⟨1, 1⟩ ⟨⟨1, 1⟩, [0, 0, 0], 2⟩ rfl

/-- C7: under the construction invariant, the `data` accessor returns
exactly the first width * height * bytesPerPixel bytes of the backing
storage, so its length equals width * height * bytesPerPixel regardless
of the backing storage's actual capacity. -/
theorem framebuffer_data_spec (fb : Framebuffer)
    (h : fb.pixel_count * fb.bpp ≤ fb.data.length) :
    ∃ l, fb.dataBytes = some l ∧
      l = fb.data.take (fb.size.width * fb.size.height * fb.bpp) ∧
      l.length = fb.size.width * fb.size.height * fb.bpp := by
  refine ⟨fb.data.take (fb.pixel_count * fb.bpp), ?_, rfl, ?_⟩
  · simp [Framebuffer.dataBytes, h]
  · rw [List.length_take]
    unfold Framebuffer.pixel_count at h
    unfold Framebuffer.pixel_count
    omega

/-- Witness for C7: a 1 x 1 two-byte framebuffer over a four-byte backing
buffer exposes exactly its first two bytes. -/
theorem framebuffer_data_spec_witness :
    ∃ l, (⟨⟨1, 1⟩, [1, 2, 3, 4], 2⟩ : Framebuffer).dataBytes = some l ∧
      l = [1, 2] ∧ l.length = 2 :=
  framebuffer_data_spec ⟨⟨1, 1⟩, [1, 2, 3, 4], 2⟩ (by decide)

theorem toUsize_coe (n : Nat) : toUsize (n : Int) = some n := by
  simp [toUsize]

theorem toUsize_some (i : Int) (n : Nat) (h : toUsize i = some n) :
    0 ≤ i ∧ (n : Int) = i := by
  unfold toUsize at h
  split_ifs at h with h0
  have h1 := Option.some.inj h
  subst h1
  omega

theorem toUsize_none (i : Int) (h : toUsize i = none) : i < 0 := by
  unfold toUsize at h
  split_ifs at h with h0
  omega

theorem writeBytes_length (data : List Nat) (off : Nat) (b : List Nat)
    (h : off + b.length ≤ data.length) :
    (writeBytes data off b).length = data.length := by
  simp [writeBytes]
  omega

theorem writeBytes_get_at (data : List Nat) (off : Nat) (b : List Nat) (i : Nat)
    (hoff : off ≤ data.length) (hi : i < b.length) :
    (writeBytes data off b)[off + i]? = b[i]? := by
  unfold writeBytes
  have hlt : (List.take off data).length = off := by
    rw [List.length_take]
    omega
  rw [List.append_assoc, List.getElem?_append_right (by omega), hlt,
    Nat.add_sub_cancel_left, List.getElem?_append]
  simp [hi]

theorem writeBytes_get_outside (data : List Nat) (off : Nat) (b : List Nat)
    (j : Nat) (hoff : off + b.length ≤ data.length)
    (h : j < off ∨ off + b.length ≤ j) :
    (writeBytes data off b)[j]? = data[j]? := by
  unfold writeBytes
  have hlt : (List.take off data).length = off := by
    rw [List.length_take]
    omega
  rw [List.append_assoc, List.getElem?_append, hlt]
  rcases h with h | h
  · rw [if_pos h, List.getElem?_take, if_pos h]
  · rw [if_neg (by omega), List.getElem?_append, if_neg (by omega),
      List.getElem?_drop]
    congr 1
    omega

/-- C4: for every framebuffer satisfying the construction invariant and
every in-bounds pixel (x < width, y < height) whose color encodes to the
big-endian byte list `enc` of length bytesPerPixel, drawing that pixel
overwrites exactly the bytesPerPixel bytes at offset
(y * width + x) * bytesPerPixel with `enc` and leaves every other byte
of the buffer unchanged (the buffer length is also preserved). -/
theorem draw_in_bounds (fb : Framebuffer) (x y : Nat) (enc : List Nat)
    (hx : x < fb.size.width) (hy : y < fb.size.height)
    (hl : enc.length = fb.bpp)
    (hinv : fb.pixel_count * fb.bpp ≤ fb.data.length) :
    ((draw_iter fb [(⟨(x : Int), (y : Int)⟩, enc)]).data.length = fb.data.length) ∧
    (∀ i, i < fb.bpp →
      (draw_iter fb [(⟨(x : Int), (y : Int)⟩, enc)]).data[(y * fb.size.width + x) * fb.bpp + i]? =
        enc[i]?) ∧
    (∀ j, j < (y * fb.size.width + x) * fb.bpp ∨
        (y * fb.size.width + x) * fb.bpp + fb.bpp ≤ j →
      (draw_iter fb [(⟨(x : Int), (y : Int)⟩, enc)]).data[j]? = fb.data[j]?) := by
  have hoffb : (y * fb.size.width + x) * fb.bpp + fb.bpp ≤ fb.data.length := by
    have h1 : y * fb.size.width + x + 1 ≤ fb.size.width * fb.size.height := by
      calc y * fb.size.width + x + 1 ≤ y * fb.size.width + fb.size.width := by omega
        _ = (y + 1) * fb.size.width := by ring
        _ ≤ fb.size.height * fb.size.width := Nat.mul_le_mul_right _ (by omega)
        _ = fb.size.width * fb.size.height := Nat.mul_comm _ _
    have h2 : (y * fb.size.width + x + 1) * fb.bpp ≤
        fb.size.width * fb.size.height * fb.bpp := Nat.mul_le_mul_right _ h1
    have h3 : (y * fb.size.width + x + 1) * fb.bpp =
        (y * fb.size.width + x) * fb.bpp + fb.bpp := by ring
    unfold Framebuffer.pixel_count at hinv
    omega
  have hdraw : draw_iter fb [(⟨(x : Int), (y : Int)⟩, enc)] =
      { fb with data := writeBytes fb.data ((y * fb.size.width + x) * fb.bpp) enc } := by
    simp [draw_iter, drawPixel, toUsize_coe]
    intro hcon
    exact absurd hcon (by omega)
  refine ⟨?_, ?_, ?_⟩
  · rw [hdraw]
    exact writeBytes_length _ _ _ (by omega)
  · intro i hi
    rw [hdraw]
    exact writeBytes_get_at _ _ _ i (by omega) (by omega)
  · intro j hj
    rw [hdraw]
    exact writeBytes_get_outside _ _ _ j (by omega) (by omega)

/-- Witness for C4: drawing the encoding [0xF8, 0x00] of color 0xF800 at
(0, 0) in a freshly constructed 1 x 1 two-byte framebuffer writes those
two bytes, and the exposed contents become exactly [0xF8, 0x00]. -/
theorem draw_in_bounds_witness :
    (∀ i, i < 2 →
      (draw_iter ⟨⟨1, 1⟩, [0, 0], 2⟩ [(⟨0, 0⟩, [0xF8, 0x00])]).data[(0 * 1 + 0) * 2 + i]? =
        [0xF8, 0x00][i]?) ∧
    (draw_iter ⟨⟨1, 1⟩, [0, 0], 2⟩ [(⟨0, 0⟩, [0xF8, 0x00])]).dataBytes =
      some [0xF8, 0x00] :=
  ⟨(draw_in_bounds ⟨⟨1, 1⟩, [0, 0], 2⟩ 0 0 [0xF8, 0x00]
      (by decide) (by decide) (by decide) (by decide)).2.1,
   by decide⟩

/-- C5: for every framebuffer and every point whose x or y coordinate is
negative, or whose x is at least the width or y at least the height, a
draw call containing that point leaves the buffer contents completely
unchanged (the point is silently skipped, not an error). -/
theorem draw_out_of_bounds (fb : Framebuffer) (p : Point) (enc : List Nat)
    (h : p.x < 0 ∨ p.y < 0 ∨ (fb.size.width : Int) ≤ p.x ∨
      (fb.size.height : Int) ≤ p.y) :
    draw_iter fb [(p, enc)] = fb := by
  have hpix : drawPixel fb p enc = fb := by
    cases hx : toUsize p.x with
    | none => simp [drawPixel, hx]
    | some x =>
      cases hy : toUsize p.y with
      | none => simp [drawPixel, hx, hy]
      | some y =>
        have h1 := toUsize_some _ _ hx
        have h2 := toUsize_some _ _ hy
        simp [drawPixel, hx, hy]
        intro hx2 hy2
        exfalso
        omega
  simp [draw_iter, hpix]

/-- Witness for C5: drawing at (5, 0) in a 1 x 1 framebuffer changes
nothing. -/
theorem draw_out_of_bounds_witness :
    draw_iter ⟨⟨1, 1⟩, [7, 7], 2⟩ [(⟨5, 0⟩, [1, 2])] = ⟨⟨1, 1⟩, [7, 7], 2⟩ :=
  draw_out_of_bounds ⟨⟨1, 1⟩, [7, 7], 2⟩ ⟨5, 0⟩ [1, 2] (by decide)
